import Mathlib

/-!
# CarbOnSeer autoscaler — shallow embedding

Shallow embedding of `src/autoscaler/autoscaler.py` (class `CarbOnSeer` and
the nested `ReqHandler`).  Python floats are modelled as rationals (`ℚ`),
timestamps as rationals, replica counts as integers.  The shared mutable
state (the per-region carbon cache `_carbon_cache` and the fallback table
`carbon_map`) is passed explicitly.  Network calls (`fetch_electricitymap`,
`fetch_watttime_index`) are modelled by their outcome for the current cycle:
an `Option ℚ` that is `none` exactly when the call fails or yields no value
(the Python wraps every failure into returning `None`).
-/

namespace CarbOnSeer

/-- Configuration fields read by the autoscaler (`CarbOnSeer.__init__`,
with the defaults the Python `cfg.get` calls supply). -/
structure Config where
  min_replicas : ℤ
  max_replicas : ℤ
  slo_p95_ms : ℚ
  weight_slo : ℚ
  weight_carbon : ℚ
  weight_cost : ℚ
  cost_per_replica : ℚ
  cost_norm_max : ℚ
  default_carbon : ℚ
  cache_ttl : ℚ
  deriving Repr

/-- The mutable state shared between the control loop and the HTTP
ingestion handler: `self.carbon_map` (region → fallback value) and
`self._carbon_cache` (region → (value, timestamp)). -/
structure CarbonState where
  carbonMap : String → Option ℚ
  cache : String → Option (ℚ × ℚ)

/-- Outcome of the two provider calls for the current resolution attempt:
`enabled` flags from `self.providers`, and the value each fetch would
return (`none` models any failure: network error, malformed payload,
missing field, missing credentials — the Python fetchers catch every
exception and return `None`). -/
structure ProviderOutcome where
  em_enabled : Bool
  em_result : Option ℚ
  wt_enabled : Bool
  wt_result : Option ℚ
  deriving Repr

/-- The provider-chain part of `get_carbon` (lines 129-142): try
electricitymap if enabled, then watttime if enabled and electricitymap
yielded nothing. -/
def providerChain (pv : ProviderOutcome) : Option ℚ :=
  let val : Option ℚ := if pv.em_enabled then pv.em_result else none
  match val with
  | some v => some v
  | none => if pv.wt_enabled then pv.wt_result else none

/-- Embeds `CarbOnSeer.get_carbon(region)` (lines 122-148).  Returns the
resolved value and the updated state; `now` is `time.time()` at entry. -/
def get_carbon (cfg : Config) (pv : ProviderOutcome) (now : ℚ)
    (s : CarbonState) (region : String) : ℚ × CarbonState :=
  match s.cache region with
  | some c =>
    if now - c.2 < cfg.cache_ttl then (c.1, s)
    else
      let v : ℚ :=
        match providerChain pv with
        | some p => p
        | none =>
          match s.carbonMap region with
          | some m => m
          | none => cfg.default_carbon
      (v, { s with cache := fun r => if r = region then some (v, now) else s.cache r })
  | none =>
    let v : ℚ :=
      match providerChain pv with
      | some p => p
      | none =>
        match s.carbonMap region with
        | some m => m
        | none => cfg.default_carbon
    (v, { s with cache := fun r => if r = region then some (v, now) else s.cache r })

/-- The SLO-score part of `compute_scores` (lines 155-158). -/
def sloScore (cfg : Config) (p95 : Option ℚ) : ℚ :=
  match p95 with
  | none => 1/2
  | some l =>
    if l ≤ cfg.slo_p95_ms then 1
    else max 0 (1 - (l - cfg.slo_p95_ms) / (cfg.slo_p95_ms * 5))

/-- The dict returned by `compute_scores` (line 164). -/
structure ScoreResult where
  slo : ℚ
  carbon : ℚ
  cost : ℚ
  combined : ℚ
  carbon_g : ℚ
  deriving Repr, DecidableEq

/-- Embeds `CarbOnSeer.compute_scores(p95_ms, region)` (lines 153-164); the
Python default for `region` is `"local"`. -/
def compute_scores (cfg : Config) (pv : ProviderOutcome) (now : ℚ)
    (s : CarbonState) (p95 : Option ℚ) (region : String) :
    ScoreResult × CarbonState :=
  let slo_score := sloScore cfg p95
  let r := get_carbon cfg pv now s region
  let carbon_val := r.1
  let carbon_score := max 0 (1 - carbon_val / 1000)
  let cost_score := 1 - min 1 (cfg.cost_per_replica / max (1/1000000) cfg.cost_norm_max)
  let combined := cfg.weight_slo * slo_score + cfg.weight_carbon * carbon_score
      + cfg.weight_cost * cost_score
  ({ slo := slo_score, carbon := carbon_score, cost := cost_score,
     combined := combined, carbon_g := carbon_val }, r.2)

/-- The decision policy of `run_loop` (lines 233-239): `newr`. -/
def decideReplicas (cfg : Config) (p95 : Option ℚ) (cur : ℤ) : ℤ :=
  match p95 with
  | none => cur
  | some l =>
    if l > cfg.slo_p95_ms ∧ cur < cfg.max_replicas then
      min cfg.max_replicas (cur + 1)
    else if l < cfg.slo_p95_ms * (6/10) ∧ cur > cfg.min_replicas then
      max cfg.min_replicas (cur - 1)
    else cur

/-- The patch decision of `run_loop` (line 240): a patch is issued exactly
when `newr != cur`, and it carries `newr`. -/
def patchTarget (cfg : Config) (p95 : Option ℚ) (cur : ℤ) : Option ℤ :=
  let newr := decideReplicas cfg p95 cur
  if newr ≠ cur then some newr else none

/-- The region `run_loop` scores against each cycle: `compute_scores(p95)`
at line 224 uses the default `region='local'` of `compute_scores`. -/
def runLoopScoreRegion : String := "local"

/-- One iteration of `run_loop` (lines 220-246): score (mutating the carbon
state through `get_carbon`), then read current replicas (`curRead = none`
models a failed `get_current_replicas`, which aborts the cycle with no
patch), then decide and patch.  Returns the patch issued (if any) and the
resulting shared carbon state. -/
def run_loop_cycle (cfg : Config) (pv : ProviderOutcome) (now : ℚ)
    (s : CarbonState) (p95 : Option ℚ) (curRead : Option ℤ) :
    Option ℤ × CarbonState :=
  let sc := compute_scores cfg pv now s p95 runLoopScoreRegion
  match curRead with
  | none => (none, sc.2)
  | some cur => (patchTarget cfg p95 cur, sc.2)

/-- The body of a POST request as `ReqHandler.do_POST` (lines 186-204) sees
it after `json.loads` and field extraction: `malformed` covers a body that
fails to parse as JSON (or is not an object, so that `.get` raises);
otherwise `region` is the `"region"` field when present and `carbon` is
`some v` exactly when `float(j.get("carbon"))` succeeds, i.e. the `carbon`
field is present and converts to a number. -/
inductive PostBody where
  | malformed : PostBody
  | obj (region : Option String) (carbon : Option ℚ) : PostBody
  deriving Repr, DecidableEq

/-- HTTP status sent by `do_POST`. -/
inductive PostResponse where
  | ok : PostResponse
  | badRequest : PostResponse
  | notFound : PostResponse
  deriving Repr, DecidableEq

/-- The region key used when the body omits `"region"`:
`j.get("region", "local")` at line 194. -/
def postDefaultRegion : String := "local"

/-- Embeds `ReqHandler.do_POST` (lines 187-204): 404 unless the path is
`/update_carbon`; then parse the body, extract `region` (default
`"local"`) and `carbon`; on success write both `carbon_map[region]` and
`_carbon_cache[region] = (carbon, now)` and answer 200 "ok"; any failure
(malformed JSON, missing or non-convertible `carbon`) answers 400 having
touched nothing. -/
def do_POST (path : String) (body : PostBody) (now : ℚ)
    (s : CarbonState) : PostResponse × CarbonState :=
  if path ≠ "/update_carbon" then (.notFound, s)
  else
    match body with
    | .malformed => (.badRequest, s)
    | .obj region carbon =>
      match carbon with
      | none => (.badRequest, s)
      | some v =>
        let r := region.getD postDefaultRegion
        (.ok,
          { carbonMap := fun x => if x = r then some v else s.carbonMap x,
            cache := fun x => if x = r then some (v, now) else s.cache x })

/-- Membership in the unit interval `[0,1]`, the range the spec asserts
for every `ScoreResult` field. -/
def inZeroOne (x : ℚ) : Prop := 0 ≤ x ∧ x ≤ 1

instance (x : ℚ) : Decidable (inZeroOne x) := by
  unfold inZeroOne
  infer_instance

/-! ## Concrete fixtures used to instantiate the theorems -/

/-- A configuration matching the concrete scenarios of the spec
(`slo_p95_ms=200`, `min_replicas=1`, `max_replicas=5`) and the Python
defaults for the remaining fields. -/
def cfg0 : Config :=
  { min_replicas := 1, max_replicas := 5, slo_p95_ms := 200,
    weight_slo := 6/10, weight_carbon := 3/10, weight_cost := 1/10,
    cost_per_replica := 1/50, cost_norm_max := 1,
    default_carbon := 300, cache_ttl := 300 }

/-- Both providers disabled (so every resolution falls through to the
static map or the default). -/
def pvNone : ProviderOutcome :=
  { em_enabled := false, em_result := none, wt_enabled := false, wt_result := none }

/-- Empty shared state: no cache entries, empty `carbon_map`. -/
def s0 : CarbonState := { carbonMap := fun _ => none, cache := fun _ => none }

/-- A state whose cache holds a negative carbon value for `"local"` at
timestamp 0 — reachable by `POST /update_carbon {"carbon": -1000}`. -/
def sNeg : CarbonState :=
  { carbonMap := fun _ => none,
    cache := fun r => if r = "local" then some (-1000, 0) else none }

/-- A state with an expired cache entry and a `carbon_map` entry for
`"de"`: cache holds `(700, 0)`, the map holds `120`. -/
def sStale : CarbonState :=
  { carbonMap := fun r => if r = "de" then some 120 else none,
    cache := fun r => if r = "de" then some (700, 0) else none }

/-! ## Theorems -/

/-- If the current count lies in `[min_replicas, max_replicas]`, the
decided count stays there. -/
theorem decideReplicas_mem (cfg : Config) (p95 : Option ℚ) (cur : ℤ)
    (hlo : cfg.min_replicas ≤ cur) (hhi : cur ≤ cfg.max_replicas) :
    cfg.min_replicas ≤ decideReplicas cfg p95 cur ∧
      decideReplicas cfg p95 cur ≤ cfg.max_replicas := by
  cases p95 with
  | none => exact ⟨hlo, hhi⟩
  | some l =>
    simp only [decideReplicas]
    split
    · omega
    · split
      · omega
      · exact ⟨hlo, hhi⟩

/-- C1 (counterexample): the claim quantifies over every current replica
count reported by the orchestration API, including counts outside
`[min_replicas, max_replicas]`.  With `min_replicas = 1`,
`max_replicas = 5`, a reported count of 10 and latency 100 (below
`200 × 0.6`), the cycle patches to 9, which is outside the interval. -/
theorem C1_patch_outside_interval :
    (run_loop_cycle cfg0 pvNone 0 s0 (some 100) (some 10)).1 = some 9 ∧
      ¬(cfg0.min_replicas ≤ 9 ∧ (9 : ℤ) ≤ cfg0.max_replicas) := by
  constructor
  · simp [run_loop_cycle, compute_scores, patchTarget, decideReplicas, cfg0, pvNone, s0]
    norm_num
  · simp [cfg0]

/-- C1 (amended): whenever the current replica count reported by the
orchestration API lies within `[min_replicas, max_replicas]`, any replica
count the controller patches also lies within `[min_replicas,
max_replicas]`, for every latency reading. -/
theorem run_loop_patch_within_bounds (cfg : Config) (pv : ProviderOutcome)
    (now : ℚ) (s : CarbonState) (p95 : Option ℚ) (cur n : ℤ)
    (hlo : cfg.min_replicas ≤ cur) (hhi : cur ≤ cfg.max_replicas)
    (hp : (run_loop_cycle cfg pv now s p95 (some cur)).1 = some n) :
    cfg.min_replicas ≤ n ∧ n ≤ cfg.max_replicas := by
  have hb := decideReplicas_mem cfg p95 cur hlo hhi
  simp only [run_loop_cycle, patchTarget] at hp
  split at hp
  · cases hp
    exact hb
  · exact absurd hp (by simp)

/-- C1 witness: the amended theorem at a concrete input (`cur = 3`,
latency 250 → patch to 4, which lies in `[1, 5]`). -/
theorem run_loop_patch_within_bounds_witness :
    cfg0.min_replicas ≤ 4 ∧ (4 : ℤ) ≤ cfg0.max_replicas :=
  run_loop_patch_within_bounds cfg0 pvNone 0 s0 (some 250) 3 4
    (by decide) (by decide)
    (by simp [run_loop_cycle, compute_scores, patchTarget, decideReplicas, cfg0, pvNone, s0]
        norm_num)

/-- The SLO score is always in `[0,1]` when the latency target is
positive. -/
theorem sloScore_mem_unit (cfg : Config) (p95 : Option ℚ)
    (ht : 0 < cfg.slo_p95_ms) : inZeroOne (sloScore cfg p95) := by
  cases p95 with
  | none => norm_num [sloScore, inZeroOne]
  | some l =>
    simp only [sloScore, inZeroOne]
    split
    · norm_num
    · constructor
      · exact le_max_left 0 _
      · apply max_le (by norm_num)
        have hpos : (0:ℚ) < cfg.slo_p95_ms * 5 := by linarith
        have hnum : (0:ℚ) ≤ (l - cfg.slo_p95_ms) / (cfg.slo_p95_ms * 5) := by
          apply div_nonneg _ hpos.le
          linarith
        linarith

/-- A weighted sum of three unit-interval values with nonnegative weights
summing to at most 1 is a unit-interval value. -/
theorem weighted_sum_mem_unit (w1 w2 w3 a b c : ℚ)
    (h1 : 0 ≤ w1) (h2 : 0 ≤ w2) (h3 : 0 ≤ w3) (hs : w1 + w2 + w3 ≤ 1)
    (ha : inZeroOne a) (hb : inZeroOne b) (hc : inZeroOne c) :
    inZeroOne (w1 * a + w2 * b + w3 * c) := by
  obtain ⟨ha0, ha1⟩ := ha
  obtain ⟨hb0, hb1⟩ := hb
  obtain ⟨hc0, hc1⟩ := hc
  constructor
  · have := mul_nonneg h1 ha0
    have := mul_nonneg h2 hb0
    have := mul_nonneg h3 hc0
    linarith
  · have := mul_le_of_le_one_right h1 ha1
    have := mul_le_of_le_one_right h2 hb1
    have := mul_le_of_le_one_right h3 hc1
    linarith

/-- C2 (counterexample): the carbon score is clamped below at 0 but not
above at 1.  With a cached carbon value of `-1000` for `"local"` (which
the ingestion endpoint accepts), `compute_scores` yields
`carbon_score = 2`, outside `[0,1]`. -/
theorem C2_carbon_score_above_one :
    ¬ inZeroOne (compute_scores cfg0 pvNone 0 sNeg none "local").1.carbon := by
  have h : (compute_scores cfg0 pvNone 0 sNeg none "local").1.carbon = 2 := by
    norm_num [compute_scores, get_carbon, cfg0, pvNone, sNeg]
  rw [h]
  norm_num [inZeroOne]

/-- C2 (amended): all four score fields `slo_score`, `carbon_score`,
`cost_score` and `combined` lie in `[0,1]` provided the latency target is
positive, the resolved carbon value is nonnegative, `cost_per_replica` is
nonnegative, and the three weights are nonnegative and sum to at most 1.
The code clamps the SLO and carbon scores below at 0, but the carbon score
is not clamped above, so a negative resolved carbon value (injectable via
`/update_carbon`) produces `carbon_score > 1`. -/
theorem compute_scores_bounded (cfg : Config) (pv : ProviderOutcome)
    (now : ℚ) (s : CarbonState) (p95 : Option ℚ) (region : String)
    (ht : 0 < cfg.slo_p95_ms)
    (hcarbon : 0 ≤ (compute_scores cfg pv now s p95 region).1.carbon_g)
    (hcost : 0 ≤ cfg.cost_per_replica)
    (hw1 : 0 ≤ cfg.weight_slo) (hw2 : 0 ≤ cfg.weight_carbon)
    (hw3 : 0 ≤ cfg.weight_cost)
    (hws : cfg.weight_slo + cfg.weight_carbon + cfg.weight_cost ≤ 1) :
    inZeroOne (compute_scores cfg pv now s p95 region).1.slo ∧
    inZeroOne (compute_scores cfg pv now s p95 region).1.carbon ∧
    inZeroOne (compute_scores cfg pv now s p95 region).1.cost ∧
    inZeroOne (compute_scores cfg pv now s p95 region).1.combined := by
  have hcg : (compute_scores cfg pv now s p95 region).1.carbon_g
      = (get_carbon cfg pv now s region).1 := rfl
  rw [hcg] at hcarbon
  have hslo : (compute_scores cfg pv now s p95 region).1.slo
      = sloScore cfg p95 := rfl
  have hcarbE : (compute_scores cfg pv now s p95 region).1.carbon
      = max 0 (1 - (get_carbon cfg pv now s region).1 / 1000) := rfl
  have hcostE : (compute_scores cfg pv now s p95 region).1.cost
      = 1 - min 1 (cfg.cost_per_replica / max (1/1000000) cfg.cost_norm_max) := rfl
  have hcombE : (compute_scores cfg pv now s p95 region).1.combined
      = cfg.weight_slo * (compute_scores cfg pv now s p95 region).1.slo
        + cfg.weight_carbon * (compute_scores cfg pv now s p95 region).1.carbon
        + cfg.weight_cost * (compute_scores cfg pv now s p95 region).1.cost := rfl
  have hsloB : inZeroOne (compute_scores cfg pv now s p95 region).1.slo := by
    rw [hslo]
    exact sloScore_mem_unit cfg p95 ht
  have hcarbB : inZeroOne (compute_scores cfg pv now s p95 region).1.carbon := by
    rw [hcarbE]
    constructor
    · exact le_max_left 0 _
    · apply max_le (by norm_num)
      have : (0:ℚ) ≤ (get_carbon cfg pv now s region).1 / 1000 :=
        div_nonneg hcarbon (by norm_num)
      linarith
  have hcostB : inZeroOne (compute_scores cfg pv now s p95 region).1.cost := by
    rw [hcostE]
    have hden : (0:ℚ) < max (1/1000000) cfg.cost_norm_max :=
      lt_max_of_lt_left (by norm_num)
    have hq : 0 ≤ cfg.cost_per_replica / max (1/1000000) cfg.cost_norm_max :=
      div_nonneg hcost hden.le
    constructor
    · have : min 1 (cfg.cost_per_replica / max (1/1000000) cfg.cost_norm_max) ≤ 1 :=
        min_le_left _ _
      linarith
    · have : 0 ≤ min 1 (cfg.cost_per_replica / max (1/1000000) cfg.cost_norm_max) :=
        le_min (by norm_num) hq
      linarith
  refine ⟨hsloB, hcarbB, hcostB, ?_⟩
  rw [hcombE]
  exact weighted_sum_mem_unit _ _ _ _ _ _ hw1 hw2 hw3 hws hsloB hcarbB hcostB

/-- C2 witness: the amended theorem at a concrete input (empty state,
absent latency, default configuration; the resolved carbon is the default
300, so all four fields land in `[0,1]`). -/
theorem compute_scores_bounded_witness :
    inZeroOne (compute_scores cfg0 pvNone 0 s0 none "local").1.slo ∧
    inZeroOne (compute_scores cfg0 pvNone 0 s0 none "local").1.carbon ∧
    inZeroOne (compute_scores cfg0 pvNone 0 s0 none "local").1.cost ∧
    inZeroOne (compute_scores cfg0 pvNone 0 s0 none "local").1.combined :=
  compute_scores_bounded cfg0 pvNone 0 s0 none "local"
    (by norm_num [cfg0])
    (by norm_num [compute_scores, get_carbon, providerChain, cfg0, pvNone, s0])
    (by norm_num [cfg0]) (by norm_num [cfg0]) (by norm_num [cfg0])
    (by norm_num [cfg0]) (by norm_num [cfg0])

/-- C3: with a positive latency target, the SLO score is `0.5` when the
latency is absent; `1.0` for every latency `l ≤ slo_p95_ms`; equals
`max 0 (1 − (l − target)/(target × 5))` for every `l > slo_p95_ms`
(hence `0.0` for every `l ≥ target × 6`); and it is monotonically
non-increasing in the latency. -/
theorem slo_score_policy (cfg : Config) (ht : 0 < cfg.slo_p95_ms) :
    sloScore cfg none = 1/2
    ∧ (∀ l : ℚ, l ≤ cfg.slo_p95_ms → sloScore cfg (some l) = 1)
    ∧ (∀ l : ℚ, cfg.slo_p95_ms < l →
        sloScore cfg (some l)
          = max 0 (1 - (l - cfg.slo_p95_ms) / (cfg.slo_p95_ms * 5)))
    ∧ (∀ l : ℚ, cfg.slo_p95_ms * 6 ≤ l → sloScore cfg (some l) = 0)
    ∧ (∀ l1 l2 : ℚ, l1 ≤ l2 → sloScore cfg (some l2) ≤ sloScore cfg (some l1)) := by
  have hpos : (0:ℚ) < cfg.slo_p95_ms * 5 := by linarith
  refine ⟨rfl, ?_, ?_, ?_, ?_⟩
  · intro l hl
    simp [sloScore, hl]
  · intro l hl
    simp [sloScore, not_le.mpr hl]
  · intro l hl
    have hgt : cfg.slo_p95_ms < l := by linarith
    simp only [sloScore, not_le.mpr hgt, if_false]
    have h1 : (1:ℚ) ≤ (l - cfg.slo_p95_ms) / (cfg.slo_p95_ms * 5) :=
      (le_div_iff₀ hpos).mpr (by linarith)
    exact max_eq_left (by linarith)
  · intro l1 l2 hle
    by_cases h2 : l2 ≤ cfg.slo_p95_ms
    · have h1 : l1 ≤ cfg.slo_p95_ms := le_trans hle h2
      simp [sloScore, h1, h2]
    · by_cases h1 : l1 ≤ cfg.slo_p95_ms
      · simp only [sloScore, h1, if_true, h2, if_false]
        apply max_le (by norm_num)
        have : (0:ℚ) ≤ (l2 - cfg.slo_p95_ms) / (cfg.slo_p95_ms * 5) := by
          apply div_nonneg _ hpos.le
          linarith [not_le.mp h2]
        linarith
      · simp only [sloScore, h1, h2, if_false]
        have hdiv : (l1 - cfg.slo_p95_ms) / (cfg.slo_p95_ms * 5)
            ≤ (l2 - cfg.slo_p95_ms) / (cfg.slo_p95_ms * 5) :=
          (div_le_div_iff_of_pos_right hpos).mpr (by linarith)
        exact max_le_max le_rfl (by linarith)

/-- C3 witness: at the concrete configuration (`slo_p95_ms = 200`), the
absent-latency score is `0.5` and the score at latency 150 is `1`. -/
theorem slo_score_policy_witness :
    sloScore cfg0 none = 1/2 ∧ sloScore cfg0 (some 150) = 1 :=
  ⟨(slo_score_policy cfg0 (by norm_num [cfg0])).1,
   (slo_score_policy cfg0 (by norm_num [cfg0])).2.1 150 (by norm_num [cfg0])⟩

/-- C4: with a positive latency target, the decided replica count is
`cur + 1` exactly when the latency is present, exceeds `slo_p95_ms` and
`cur < max_replicas`; it is `cur − 1` exactly when the latency is present,
is below `slo_p95_ms × 0.6` and `cur > min_replicas`; it is `cur` in every
other case (in particular whenever the latency is absent); and the cycle
issues a patch carrying `n` exactly when the decided count `n` differs
from `cur`. -/
theorem run_loop_decision_policy (cfg : Config) (pv : ProviderOutcome)
    (now : ℚ) (s : CarbonState) (p95 : Option ℚ) (cur : ℤ)
    (ht : 0 < cfg.slo_p95_ms) :
    (decideReplicas cfg p95 cur = cur + 1 ↔
      ∃ l, p95 = some l ∧ cfg.slo_p95_ms < l ∧ cur < cfg.max_replicas)
    ∧ (decideReplicas cfg p95 cur = cur - 1 ↔
      ∃ l, p95 = some l ∧ l < cfg.slo_p95_ms * (6/10) ∧ cfg.min_replicas < cur)
    ∧ (∀ l, p95 = some l →
        ¬(cfg.slo_p95_ms < l ∧ cur < cfg.max_replicas) →
        ¬(l < cfg.slo_p95_ms * (6/10) ∧ cfg.min_replicas < cur) →
        decideReplicas cfg p95 cur = cur)
    ∧ (p95 = none → decideReplicas cfg p95 cur = cur)
    ∧ (∀ n, (run_loop_cycle cfg pv now s p95 (some cur)).1 = some n ↔
        decideReplicas cfg p95 cur = n ∧ n ≠ cur) := by
  have hlt : cfg.slo_p95_ms * (6/10) < cfg.slo_p95_ms := by linarith
  refine ⟨?_, ?_, ?_, ?_, ?_⟩
  · cases p95 with
    | none =>
      simp only [decideReplicas]
      constructor
      · intro h
        omega
      · rintro ⟨l, hl, -⟩
        cases hl
    | some l =>
      simp only [decideReplicas]
      by_cases hup : cfg.slo_p95_ms < l ∧ cur < cfg.max_replicas
      · rw [if_pos hup]
        constructor
        · intro _
          exact ⟨l, rfl, hup⟩
        · intro _
          omega
      · rw [if_neg hup]
        constructor
        · intro h
          split at h <;> omega
        · rintro ⟨l', hl', h1, h2⟩
          cases hl'
          exact absurd ⟨h1, h2⟩ hup
  · cases p95 with
    | none =>
      simp only [decideReplicas]
      constructor
      · intro h
        omega
      · rintro ⟨l, hl, -⟩
        cases hl
    | some l =>
      simp only [decideReplicas]
      by_cases hup : cfg.slo_p95_ms < l ∧ cur < cfg.max_replicas
      · rw [if_pos hup]
        constructor
        · intro h
          omega
        · rintro ⟨l', hl', h1, -⟩
          cases hl'
          exact absurd hup.1 (by linarith)
      · rw [if_neg hup]
        by_cases hdn : l < cfg.slo_p95_ms * (6/10) ∧ cfg.min_replicas < cur
        · rw [if_pos hdn]
          constructor
          · intro _
            exact ⟨l, rfl, hdn⟩
          · intro _
            omega
        · rw [if_neg hdn]
          constructor
          · intro h
            omega
          · rintro ⟨l', hl', h1, h2⟩
            cases hl'
            exact absurd ⟨h1, h2⟩ hdn
  · intro l hl hup hdn
    cases hl
    simp only [decideReplicas, if_neg hup, if_neg hdn]
  · intro h
    cases h
    rfl
  · intro n
    simp only [run_loop_cycle, patchTarget]
    constructor
    · intro h
      split at h
      · cases h
        rename_i hne
        exact ⟨rfl, hne⟩
      · exact absurd h (by simp)
    · rintro ⟨rfl, hne⟩
      rw [if_pos hne]

/-- C4 witness: the concrete scenarios (`slo_p95_ms = 200`, `cur = 3`,
`max_replicas = 5`, `min_replicas = 1`): latency 250 decides `3 + 1` and
the cycle patches to 4; latency 100 decides `3 − 1`; the patch for
latency 150 is derived as `none` from the policy theorem. -/
theorem run_loop_decision_policy_witness :
    decideReplicas cfg0 (some 250) 3 = 3 + 1
    ∧ decideReplicas cfg0 (some 100) 3 = 3 - 1
    ∧ (run_loop_cycle cfg0 pvNone 0 s0 (some 250) (some 3)).1 = some 4 := by
  refine ⟨?_, ?_, ?_⟩
  · exact (run_loop_decision_policy cfg0 pvNone 0 s0 (some 250) 3
      (by norm_num [cfg0])).1.mpr ⟨250, rfl, by norm_num [cfg0], by decide⟩
  · exact (run_loop_decision_policy cfg0 pvNone 0 s0 (some 100) 3
      (by norm_num [cfg0])).2.1.mpr ⟨100, rfl, by norm_num [cfg0], by decide⟩
  · refine ((run_loop_decision_policy cfg0 pvNone 0 s0 (some 250) 3
      (by norm_num [cfg0])).2.2.2.2 4).mpr ⟨?_, by decide⟩
    exact (run_loop_decision_policy cfg0 pvNone 0 s0 (some 250) 3
      (by norm_num [cfg0])).1.mpr ⟨250, rfl, by norm_num [cfg0], by decide⟩

/-- The provider chain yields electricitymap's value when that provider is
enabled and returns one. -/
theorem providerChain_em (pv : ProviderOutcome) (x : ℚ)
    (he : pv.em_enabled = true) (hr : pv.em_result = some x) :
    providerChain pv = some x := by
  simp [providerChain, he, hr]

/-- The provider chain yields watttime's value when electricitymap is
disabled or yields nothing and watttime is enabled and returns one. -/
theorem providerChain_wt (pv : ProviderOutcome) (x : ℚ)
    (hem : pv.em_enabled = false ∨ pv.em_result = none)
    (hw : pv.wt_enabled = true) (hr : pv.wt_result = some x) :
    providerChain pv = some x := by
  rcases hem with h | h <;> simp [providerChain, h, hw, hr]

/-- The provider chain yields nothing when each provider is disabled or
yields nothing. -/
theorem providerChain_absent (pv : ProviderOutcome)
    (hem : pv.em_enabled = false ∨ pv.em_result = none)
    (hwt : pv.wt_enabled = false ∨ pv.wt_result = none) :
    providerChain pv = none := by
  rcases hem with h | h <;> rcases hwt with h' | h' <;> simp [providerChain, h, h']

/-- On a cache miss (absent or expired entry), `get_carbon` returns the
provider-chain value, falling back to the static map and then the default;
it stamps the cache at `region` with the returned value and the current
time, and leaves `carbon_map` untouched. -/
theorem get_carbon_miss (cfg : Config) (pv : ProviderOutcome) (now : ℚ)
    (s : CarbonState) (region : String)
    (hmiss : s.cache region = none
      ∨ ∃ c, s.cache region = some c ∧ ¬(now - c.2 < cfg.cache_ttl)) :
    (get_carbon cfg pv now s region).1
      = (match providerChain pv with
         | some p => p
         | none =>
           match s.carbonMap region with
           | some m => m
           | none => cfg.default_carbon)
    ∧ (get_carbon cfg pv now s region).2.cache region
        = some ((get_carbon cfg pv now s region).1, now)
    ∧ (get_carbon cfg pv now s region).2.carbonMap = s.carbonMap := by
  obtain hnone | ⟨c, hc, hstale⟩ := hmiss
  · refine ⟨?_, ?_, ?_⟩ <;> simp [get_carbon, hnone]
  · refine ⟨?_, ?_, ?_⟩ <;> simp [get_carbon, hc, if_neg hstale]

/-- C5: on a cache miss (absent or expired entry for the region), the
resolver takes electricitymap's value when available, else watttime's
(skipping disabled providers); when every provider is disabled or yields
no value it returns the static `carbon_map` entry for the region, and the
configured global default when the region is absent from that map; in
every case the obtained value is written into the cache for the region
with the current timestamp. -/
theorem get_carbon_fallback_order (cfg : Config) (pv : ProviderOutcome)
    (now : ℚ) (s : CarbonState) (region : String)
    (hmiss : s.cache region = none
      ∨ ∃ c, s.cache region = some c ∧ ¬(now - c.2 < cfg.cache_ttl)) :
    ((get_carbon cfg pv now s region).2.cache region
        = some ((get_carbon cfg pv now s region).1, now))
    ∧ (∀ x, pv.em_enabled = true → pv.em_result = some x →
        (get_carbon cfg pv now s region).1 = x)
    ∧ (∀ x, (pv.em_enabled = false ∨ pv.em_result = none) →
        pv.wt_enabled = true → pv.wt_result = some x →
        (get_carbon cfg pv now s region).1 = x)
    ∧ (∀ m, (pv.em_enabled = false ∨ pv.em_result = none) →
        (pv.wt_enabled = false ∨ pv.wt_result = none) →
        s.carbonMap region = some m →
        (get_carbon cfg pv now s region).1 = m)
    ∧ ((pv.em_enabled = false ∨ pv.em_result = none) →
        (pv.wt_enabled = false ∨ pv.wt_result = none) →
        s.carbonMap region = none →
        (get_carbon cfg pv now s region).1 = cfg.default_carbon) := by
  obtain ⟨hval, hcache, -⟩ := get_carbon_miss cfg pv now s region hmiss
  refine ⟨hcache, ?_, ?_, ?_, ?_⟩
  · intro x he hr
    rw [hval, providerChain_em pv x he hr]
  · intro x hem hw hr
    rw [hval, providerChain_wt pv x hem hw hr]
  · intro m hem hwt hm
    rw [hval, providerChain_absent pv hem hwt, hm]
  · intro hem hwt hm
    rw [hval, providerChain_absent pv hem hwt, hm]

/-- C5 witness: with both providers disabled, an expired cache entry
`(700, 0)` for `"de"` at `now = 1000` (TTL 300) and a map entry `120`, the
resolver returns the map value and re-stamps the cache. -/
theorem get_carbon_fallback_order_witness :
    (get_carbon cfg0 pvNone 1000 sStale "de").1 = 120 :=
  (get_carbon_fallback_order cfg0 pvNone 1000 sStale "de"
      (Or.inr ⟨(700, 0), by norm_num [sStale], by norm_num [cfg0]⟩)).2.2.2.1
    120 (Or.inl rfl) (Or.inl rfl) (by norm_num [sStale])

/-- C6: a successful `POST /update_carbon` with `{region: R, carbon: v}`
answers 200 and a resolve of `R` within the TTL returns `v`, for every
prior cache, provider and fallback state. -/
theorem update_then_resolve (cfg : Config) (pv : ProviderOutcome)
    (t0 t1 : ℚ) (s : CarbonState) (R : String) (v : ℚ)
    (hfresh : t1 - t0 < cfg.cache_ttl) :
    (do_POST "/update_carbon" (.obj (some R) (some v)) t0 s).1 = .ok
    ∧ (get_carbon cfg pv t1
        (do_POST "/update_carbon" (.obj (some R) (some v)) t0 s).2 R).1 = v := by
  constructor
  · simp [do_POST]
  · simp [do_POST, get_carbon, hfresh]

/-- C6 witness: `POST {"region":"eu","carbon":50}` at time 0 into a state
that already holds other cached values, immediately followed by a resolve
of `"eu"`, returns `50`. -/
theorem update_then_resolve_witness :
    (do_POST "/update_carbon" (.obj (some "eu") (some 50)) 0 sStale).1 = .ok
    ∧ (get_carbon cfg0 pvNone 0
        (do_POST "/update_carbon" (.obj (some "eu") (some 50)) 0 sStale).2 "eu").1
      = 50 :=
  update_then_resolve cfg0 pvNone 0 0 sStale "eu" 50 (by norm_num [cfg0])

/-- A value produced by the provider chain comes from one of the two
providers. -/
theorem providerChain_cases (pv : ProviderOutcome) (p : ℚ)
    (h : providerChain pv = some p) :
    pv.em_result = some p ∨ pv.wt_result = some p := by
  by_cases he : pv.em_enabled = true
  · cases hr : pv.em_result with
    | some x =>
      left
      simp only [providerChain, he, if_true, hr] at h
      exact h
    | none =>
      right
      simp only [providerChain, he, if_true, hr] at h
      by_cases hw : pv.wt_enabled = true
      · rwa [if_pos hw] at h
      · rw [if_neg hw] at h
        cases h
  · right
    simp only [providerChain, he, if_false] at h
    by_cases hw : pv.wt_enabled = true
    · rwa [if_pos hw] at h
    · rw [if_neg hw] at h
      cases h

/-- On a cache miss the resolved value comes from a provider, the static
map, or the default. -/
theorem resolved_value_sources (cfg : Config) (pv : ProviderOutcome)
    (v : ℚ) (mp : Option ℚ)
    (hval : v = (match providerChain pv with
                 | some p => p
                 | none =>
                   match mp with
                   | some m => m
                   | none => cfg.default_carbon)) :
    pv.em_result = some v ∨ pv.wt_result = some v ∨ mp = some v
      ∨ v = cfg.default_carbon := by
  cases hpc : providerChain pv with
  | some p =>
    rcases providerChain_cases pv p hpc with h | h
    · left
      rw [hval, hpc]
      exact h
    · right; left
      rw [hval, hpc]
      exact h
  | none =>
    cases hm : mp with
    | some m =>
      right; right; left
      rw [hval, hpc, hm]
    | none =>
      right; right; right
      rw [hval, hpc, hm]

/-- C7: resolution is total.  For every configuration, provider outcome
(including both providers disabled or failing) and shared state, the
resolver returns a numeric value, and that value is one of: the cached
value for the region, a provider value, the static `carbon_map` entry, or
the configured global default — provider failures are absorbed, never
propagated. -/
theorem get_carbon_total (cfg : Config) (pv : ProviderOutcome) (now : ℚ)
    (s : CarbonState) (region : String) :
    (∃ ts, s.cache region = some ((get_carbon cfg pv now s region).1, ts))
    ∨ pv.em_result = some (get_carbon cfg pv now s region).1
    ∨ pv.wt_result = some (get_carbon cfg pv now s region).1
    ∨ s.carbonMap region = some (get_carbon cfg pv now s region).1
    ∨ (get_carbon cfg pv now s region).1 = cfg.default_carbon := by
  cases hc : s.cache region with
  | some c =>
    by_cases hf : now - c.2 < cfg.cache_ttl
    · left
      refine ⟨c.2, ?_⟩
      have : (get_carbon cfg pv now s region).1 = c.1 := by
        simp [get_carbon, hc, hf]
      rw [this]
    · have hval := (get_carbon_miss cfg pv now s region (Or.inr ⟨c, hc, hf⟩)).1
      exact Or.inr (resolved_value_sources cfg pv _ (s.carbonMap region) hval)
  | none =>
    have hval := (get_carbon_miss cfg pv now s region (Or.inl hc)).1
    exact Or.inr (resolved_value_sources cfg pv _ (s.carbonMap region) hval)

/-- C8: the ingestion endpoint answers 200 "ok" exactly when the path is
`/update_carbon` and the body is valid JSON whose `carbon` field converts
to a number; it answers 404 exactly when the path is not
`/update_carbon`; it answers 400 exactly when the path is right but the
body is malformed or `carbon` is missing or non-convertible; and on every
non-200 response the cache and fallback state are left unchanged. -/
theorem do_POST_responses (path : String) (body : PostBody) (now : ℚ)
    (s : CarbonState) :
    ((do_POST path body now s).1 = .ok ↔
      path = "/update_carbon" ∧ ∃ reg c, body = .obj reg (some c))
    ∧ ((do_POST path body now s).1 = .notFound ↔ path ≠ "/update_carbon")
    ∧ ((do_POST path body now s).1 = .badRequest ↔
      path = "/update_carbon" ∧ ∀ reg c, body ≠ .obj reg (some c))
    ∧ ((do_POST path body now s).1 ≠ .ok → (do_POST path body now s).2 = s) := by
  by_cases hp : path = "/update_carbon"
  · subst hp
    cases body with
    | malformed => simp [do_POST]
    | obj reg carbon =>
      cases carbon with
      | none => simp [do_POST]
      | some v =>
        refine ⟨by simp [do_POST], by simp [do_POST], ?_, by simp [do_POST]⟩
        simp only [do_POST]
        constructor
        · intro h
          cases h
        · rintro ⟨-, hall⟩
          exact absurd rfl (hall reg v)
  · simp [do_POST, hp]

/-- C9: a successful `POST /update_carbon` for region `R` mutates the
static fallback table `carbon_map[R]` as well as the cache; consequently,
after the cache entry has expired and with every provider disabled or
failing, a resolve of `R` still returns the last ingested value — the
ingested value outlives the TTL window. -/
theorem ingested_value_outlives_ttl (cfg : Config) (pv : ProviderOutcome)
    (t0 t1 : ℚ) (s : CarbonState) (R : String) (v : ℚ)
    (hstale : ¬(t1 - t0 < cfg.cache_ttl))
    (hem : pv.em_enabled = false ∨ pv.em_result = none)
    (hwt : pv.wt_enabled = false ∨ pv.wt_result = none) :
    ((do_POST "/update_carbon" (.obj (some R) (some v)) t0 s).2.carbonMap R
        = some v)
    ∧ (get_carbon cfg pv t1
        (do_POST "/update_carbon" (.obj (some R) (some v)) t0 s).2 R).1 = v := by
  have hm : (do_POST "/update_carbon" (.obj (some R) (some v)) t0 s).2.carbonMap R
      = some v := by
    simp [do_POST]
  have hc : (do_POST "/update_carbon" (.obj (some R) (some v)) t0 s).2.cache R
      = some (v, t0) := by
    simp [do_POST]
  refine ⟨hm, ?_⟩
  have hval := (get_carbon_miss cfg pv t1
      (do_POST "/update_carbon" (.obj (some R) (some v)) t0 s).2 R
      (Or.inr ⟨(v, t0), hc, hstale⟩)).1
  rw [hval, providerChain_absent pv hem hwt, hm]

/-- C9 witness: ingest `42` for `"eu"` at time 0 into the empty state,
then resolve at time 1000 (TTL 300, both providers disabled): the map
holds `42` and the resolve returns `42` rather than the configured
default `300`. -/
theorem ingested_value_outlives_ttl_witness :
    ((do_POST "/update_carbon" (.obj (some "eu") (some 42)) 0 s0).2.carbonMap "eu"
        = some 42)
    ∧ (get_carbon cfg0 pvNone 1000
        (do_POST "/update_carbon" (.obj (some "eu") (some 42)) 0 s0).2 "eu").1
      = 42 :=
  ingested_value_outlives_ttl cfg0 pvNone 0 1000 s0 "eu" 42
    (by norm_num [cfg0]) (Or.inl rfl) (Or.inl rfl)

/-- C10: a `POST /update_carbon` body carrying a convertible `carbon` but
no `region` field is accepted with 200 and stored (cache and fallback
table) under the implicit key `"local"`, which is exactly the default
region the controller loop scores against each cycle; a missing region
never yields 400. -/
theorem missing_region_stored_as_local (now : ℚ) (s : CarbonState) (v : ℚ) :
    (do_POST "/update_carbon" (.obj none (some v)) now s).1 = .ok
    ∧ (do_POST "/update_carbon" (.obj none (some v)) now s).2.cache
        postDefaultRegion = some (v, now)
    ∧ (do_POST "/update_carbon" (.obj none (some v)) now s).2.carbonMap
        postDefaultRegion = some v
    ∧ postDefaultRegion = runLoopScoreRegion := by
  refine ⟨?_, ?_, ?_, rfl⟩ <;> simp [do_POST, postDefaultRegion]

end CarbOnSeer
